import Mathlib

/-!
Verification of the account-balance and aggregation core of a personal
finance web application (a Django project).  The embedding below
translates the relevant Python sources:

  - core/models.py           (Account.update_balance, Account.recalculate_balance)
  - transactions/models.py   (Transaction, get_total_by_type)
  - transactions/views.py    (transactions_view write branches, the CSV importer)
  - budgets/views.py         (BudgetData, get_budget_alerts)
  - goals/models.py          (Goal.save, GoalHistory)
  - goals/views.py           (GoalData, get_goals_chart_data, add_money_to_goal,
                              quick_add_money, goals_view edit branch)

Money values are exact rationals (the source computes with Python
Decimal throughout; the magnitudes involved keep 28-digit Decimal
context arithmetic exact for every comparison and rounding modelled
here).  Database tables are Lean lists; ORM lookups (filter,
get_object_or_404, aggregate Sum) become list operations.  Fields never
read by a verified property (icons, colors, free-text descriptions,
transaction dates inside the ledger) are omitted from the records.
-/

namespace FinTracker

/-- Transaction and category type; the type column always holds one of
the two TRANSACTION_TYPES choices from core/constants.py. -/
inductive TxType where
  | income
  | expense
deriving DecidableEq

/-- String form of a type, as stored in the type columns. -/
def TxType.str : TxType → String
  | .income => "income"
  | .expense => "expense"

/-- A row of the Transaction table (transactions/models.py). -/
structure Tx where
  id : Nat
  ty : TxType
  amount : ℚ
  categoryId : Nat
  accountId : Nat
deriving DecidableEq

/-- A row of the Category table (categories/models.py): each category
belongs to one user and fixes the type of its transactions. -/
structure Category where
  id : Nat
  userId : Nat
  ty : TxType
deriving DecidableEq

/-- The Account row (core/models.py): one per user (the user id keys the
account), carrying the denormalized balance. -/
structure Account where
  userId : Nat
  balance : ℚ
deriving DecidableEq

/-- SQL Sum aggregate: NULL (none) over the empty set, otherwise the sum. -/
def aggSum (l : List ℚ) : Option ℚ :=
  match l with
  | [] => none
  | _ => some (l.foldl (· + ·) 0)

/-- The account's rows of a given type. -/
def txOfType (ledger : List Tx) (accountId : Nat) (ty : TxType) : List Tx :=
  ledger.filter (fun t => t.accountId == accountId && t.ty == ty)

/-- transactions.models.get_total_by_type: aggregate the amounts of the
account's transactions of one type; a NULL aggregate is mapped to the
decimal value 0, so the function always returns a number. -/
def get_total_by_type (ledger : List Tx) (accountId : Nat) (ty : TxType) : ℚ :=
  match aggSum ((txOfType ledger accountId ty).map (·.amount)) with
  | none => 0
  | some x => x

/-- Specification-side ledger difference: sum of income amounts minus
sum of expense amounts of the account, written with List.sum rather
than with the aggregation pipeline of the source. -/
def ledgerDiff (ledger : List Tx) (accountId : Nat) : ℚ :=
  ((txOfType ledger accountId .income).map (·.amount)).sum
    - ((txOfType ledger accountId .expense).map (·.amount)).sum

/-- Account.update_balance: incremental update on create (income adds,
expense subtracts). -/
def Account.update_balance (a : Account) (ty : TxType) (amount : ℚ) : Account :=
  match ty with
  | .income => { a with balance := a.balance + amount }
  | .expense => { a with balance := a.balance - amount }

/-- Account.recalculate_balance: full recomputation of the balance from
the ledger via get_total_by_type. -/
def Account.recalculate_balance (a : Account) (ledger : List Tx) : Account :=
  { a with balance :=
      get_total_by_type ledger a.userId .income
        - get_total_by_type ledger a.userId .expense }

/-- Mutable state touched by the transaction write paths: the global
transaction table, the requesting user's account, the global category
table, and the next fresh row id. -/
structure St where
  ledger : List Tx
  account : Account
  categories : List Category
  nextId : Nat

/-- Outcome of a write branch of transactions_view. -/
inductive Outcome where
  | ok
  | notFoundTx
  | notFoundCategory
deriving DecidableEq

/-- Lookup get_object_or_404(Transaction, id=tid, account=account): the
transaction must belong to the requesting account. -/
def findTx (st : St) (tid : Nat) : Option Tx :=
  st.ledger.find? (fun t => t.id == tid && t.accountId == st.account.userId)

/-- Lookup get_object_or_404(Category, id=cid) as written in the add and
edit branches of transactions_view: by id alone, with no user filter. -/
def findCategoryById (st : St) (cid : Nat) : Option Category :=
  st.categories.find? (fun c => c.id == cid)

/-- Transaction.save on a new row: Account.update_balance runs first,
then the row is inserted (transactions/models.py). -/
def saveNewTx (st : St) (t : Tx) : St :=
  { st with account := st.account.update_balance t.ty t.amount
          , ledger := st.ledger ++ [t] }

/-- Transaction.save on an existing row: Account.update_balance with the
new type and amount, then the row is updated in place. -/
def saveEditedTx (st : St) (t : Tx) : St :=
  { st with account := st.account.update_balance t.ty t.amount
          , ledger := st.ledger.map (fun u => if u.id == t.id then t else u) }

/-- One call of account.recalculate_balance against the current ledger. -/
def recalcSt (st : St) : St :=
  { st with account := st.account.recalculate_balance st.ledger }

/-- The add branch of transactions_view: fetch the category by id, build
the transaction with the category's type, save it (incremental balance
update plus insert), then recalculate the balance. -/
def create_transaction (st : St) (categoryId : Nat) (amount : ℚ) : St × Outcome :=
  match findCategoryById st categoryId with
  | none => (st, .notFoundCategory)
  | some cat =>
      let t : Tx := { id := st.nextId, ty := cat.ty, amount := amount,
                      categoryId := cat.id, accountId := st.account.userId }
      (recalcSt { saveNewTx st t with nextId := st.nextId + 1 }, .ok)

/-- The edit branch of transactions_view: fetch the transaction (owned by
the requesting account) and the category (by id alone), overwrite the
row's type, amount and category, save it, then recalculate. -/
def update_transaction (st : St) (txId categoryId : Nat) (amount : ℚ) : St × Outcome :=
  match findTx st txId with
  | none => (st, .notFoundTx)
  | some _ =>
      match findCategoryById st categoryId with
      | none => (st, .notFoundCategory)
      | some cat =>
          let t : Tx := { id := txId, ty := cat.ty, amount := amount,
                          categoryId := cat.id, accountId := st.account.userId }
          (recalcSt (saveEditedTx st t), .ok)

/-- The delete branch of transactions_view: fetch the transaction (owned
by the requesting account), delete the row by primary key, then
recalculate the balance. -/
def delete_transaction (st : St) (txId : Nat) : St × Outcome :=
  match findTx st txId with
  | none => (st, .notFoundTx)
  | some _ =>
      (recalcSt { st with ledger := st.ledger.filter (fun t => !(t.id == txId)) }, .ok)

/-- A write-path operation of the Ledger Store. -/
inductive Op where
  | create (categoryId : Nat) (amount : ℚ)
  | edit (txId categoryId : Nat) (amount : ℚ)
  | delete (txId : Nat)

/-- Dispatch one write-path operation. -/
def applyOp (st : St) : Op → St × Outcome
  | .create cid a => create_transaction st cid a
  | .edit tid cid a => update_transaction st tid cid a
  | .delete tid => delete_transaction st tid

theorem foldl_add_from (l : List ℚ) : ∀ a : ℚ, l.foldl (· + ·) a = a + l.sum := by
  induction l with
  | nil => simp
  | cons x xs ih => intro a; simp [List.foldl_cons, ih, add_assoc]

theorem get_total_by_type_eq_sum (ledger : List Tx) (aid : Nat) (ty : TxType) :
    get_total_by_type ledger aid ty = ((txOfType ledger aid ty).map (·.amount)).sum := by
  unfold get_total_by_type aggSum
  cases h : (txOfType ledger aid ty).map (·.amount) with
  | nil => simp [h]
  | cons x xs => simp [foldl_add_from]

theorem recalculate_balance_eq_ledgerDiff (a : Account) (l : List Tx) :
    (a.recalculate_balance l).balance = ledgerDiff l a.userId := by
  simp [Account.recalculate_balance, ledgerDiff, get_total_by_type_eq_sum]

theorem recalcSt_balance (st : St) :
    (recalcSt st).account.balance = ledgerDiff st.ledger (recalcSt st).account.userId := by
  simp [recalcSt, Account.recalculate_balance, ledgerDiff, get_total_by_type_eq_sum]

/-- C1: after any write-path operation (create, edit or delete of a
transaction) that completes, hence has run the balance recalculation,
the account balance equals the sum of its income amounts minus the sum
of its expense amounts; and recalculate_balance always sets the balance
to exactly that ledger difference. -/
theorem balance_matches_ledger_after_write (st : St) (op : Op)
    (h : (applyOp st op).2 = Outcome.ok) :
    (applyOp st op).1.account.balance
      = ledgerDiff (applyOp st op).1.ledger (applyOp st op).1.account.userId ∧
    ∀ (a : Account) (l : List Tx),
      (a.recalculate_balance l).balance = ledgerDiff l a.userId := by
  refine ⟨?_, fun a l => recalculate_balance_eq_ledgerDiff a l⟩
  cases op with
  | create cid amt =>
      cases hc : findCategoryById st cid with
      | none => simp [applyOp, create_transaction, hc] at h
      | some cat =>
          simp only [applyOp, create_transaction, hc]
          exact recalcSt_balance _
  | edit tid cid amt =>
      cases ht : findTx st tid with
      | none => simp [applyOp, update_transaction, ht] at h
      | some t =>
          cases hc : findCategoryById st cid with
          | none => simp [applyOp, update_transaction, ht, hc] at h
          | some cat =>
              simp only [applyOp, update_transaction, ht, hc]
              exact recalcSt_balance _
  | delete tid =>
      cases ht : findTx st tid with
      | none => simp [applyOp, delete_transaction, ht] at h
      | some t =>
          simp only [applyOp, delete_transaction, ht]
          exact recalcSt_balance _

/-- State used to witness the balance invariant at a concrete input. -/
def syncSt : St :=
  { ledger := [], account := { userId := 1, balance := 0 },
    categories := [{ id := 1, userId := 1, ty := .income }], nextId := 1 }

/-- Witness for C1: a concrete create succeeds and lands in a state
whose balance matches the ledger difference. -/
theorem balance_matches_ledger_after_write_witness :
    (applyOp syncSt (Op.create 1 5)).2 = Outcome.ok ∧
    ((applyOp syncSt (Op.create 1 5)).1.account.balance
        = ledgerDiff (applyOp syncSt (Op.create 1 5)).1.ledger
            (applyOp syncSt (Op.create 1 5)).1.account.userId ∧
      ∀ (a : Account) (l : List Tx),
        (a.recalculate_balance l).balance = ledgerDiff l a.userId) :=
  ⟨by decide, balance_matches_ledger_after_write syncSt (Op.create 1 5) (by decide)⟩

/-- State exhibiting the missing category-ownership check: the requesting
user is 1, and the only category (id 5) belongs to user 2. -/
def foreignCatSt : St :=
  { ledger := [], account := { userId := 1, balance := 0 },
    categories := [{ id := 5, userId := 2, ty := .income }], nextId := 1 }

/-- C2 (code-bug evidence): the add branch of transactions_view fetches
the category by id with no user filter, so a create that references a
category owned by another user succeeds and persists a transaction,
instead of failing with NotFound and performing no mutation. -/
theorem create_transaction_accepts_foreign_category :
    (create_transaction foreignCatSt 5 10).2 = Outcome.ok ∧
    (create_transaction foreignCatSt 5 10).1.ledger =
      [{ id := 1, ty := .income, amount := 10, categoryId := 5, accountId := 1 }] := by
  decide

theorem ledgerDiff_append_single (l : List Tx) (t : Tx) (aid : Nat)
    (h : t.accountId = aid) :
    ledgerDiff (l ++ [t]) aid =
      ledgerDiff l aid +
        (match t.ty with | .income => t.amount | .expense => -t.amount) := by
  cases hty : t.ty <;>
    simp [ledgerDiff, txOfType, List.filter_append, h, hty] <;> ring

/-- C7: starting from a cached balance equal to the ledger difference,
the incremental update for a newly created transaction yields the same
balance as a full recalculation over the ledger extended with that
transaction. -/
theorem incremental_update_agrees_with_recalculation (a : Account) (l : List Tx)
    (t : Tx) (hacct : t.accountId = a.userId)
    (hsync : a.balance = ledgerDiff l a.userId) :
    (a.update_balance t.ty t.amount).balance
      = (a.recalculate_balance (l ++ [t])).balance := by
  rw [recalculate_balance_eq_ledgerDiff, ledgerDiff_append_single l t a.userId hacct]
  cases hty : t.ty <;> simp [Account.update_balance, hty, hsync] <;> ring

/-- Witness for C7 at a concrete account, ledger and transaction. -/
theorem incremental_update_agrees_with_recalculation_witness :
    let a : Account := { userId := 1, balance := 3 }
    let l : List Tx := [{ id := 1, ty := .income, amount := 3, categoryId := 1, accountId := 1 }]
    let t : Tx := { id := 2, ty := .expense, amount := 2, categoryId := 2, accountId := 1 }
    (a.update_balance t.ty t.amount).balance
      = (a.recalculate_balance (l ++ [t])).balance :=
  incremental_update_agrees_with_recalculation _ _ _ (by decide)
    (by simp [ledgerDiff, txOfType, List.filter_cons])

/-- C10: an account with no transactions of the given type gets the
decimal value 0 from get_total_by_type (a number, not an absent value),
and a recalculation over an empty ledger sets the balance to 0. -/
theorem total_by_type_empty_is_zero (l : List Tx) (a : Account) (ty : TxType)
    (h : txOfType l a.userId ty = []) :
    get_total_by_type l a.userId ty = 0 ∧ (a.recalculate_balance []).balance = 0 := by
  constructor
  · rw [get_total_by_type_eq_sum, h]; simp
  · rw [recalculate_balance_eq_ledgerDiff]; simp [ledgerDiff, txOfType]

/-- Witness for C10: an account whose ledger holds no expense rows. -/
theorem total_by_type_empty_is_zero_witness :
    get_total_by_type [] 1 TxType.expense = 0 ∧
    ((Account.mk 1 7).recalculate_balance []).balance = 0 :=
  total_by_type_empty_is_zero [] (Account.mk 1 7) TxType.expense (by decide)

/-- Python round applied to an exact decimal value: round half to even. -/
def pyRound (x : ℚ) : ℤ :=
  if x - ⌊x⌋ < 1 / 2 then ⌊x⌋
  else if 1 / 2 < x - ⌊x⌋ then ⌊x⌋ + 1
  else if ⌊x⌋ % 2 = 0 then ⌊x⌋ else ⌊x⌋ + 1

theorem pyRound_nonneg (x : ℚ) (hx : 0 ≤ x) : 0 ≤ pyRound x := by
  have hf : (0 : ℤ) ≤ ⌊x⌋ := Int.le_floor.mpr (by exact_mod_cast hx)
  unfold pyRound
  split_ifs <;> omega

/-- The per-budget record built by get_budgets_data (budgets/views.py);
only the fields the verified properties read are kept.  A NULL spent
aggregate is stored as 0 by the constructor, see mkBudgetData. -/
structure BudgetData where
  name : String
  spent : ℚ
  amount : ℚ
deriving DecidableEq

/-- The BudgetData constructor: spent is 0 when the month had no
transactions on the category (the Sum aggregate was NULL). -/
def mkBudgetData (name : String) (spent : Option ℚ) (amount : ℚ) : BudgetData :=
  { name := name, spent := spent.getD 0, amount := amount }

/-- BudgetData.percentage_used: 0 on a zero budget amount, otherwise the
rounded percentage capped at 100. -/
def BudgetData.percentage_used (b : BudgetData) : ℤ :=
  if b.amount = 0 then 0
  else min (pyRound (b.spent / b.amount * 100)) 100

/-- BudgetData.is_over_budget. -/
def BudgetData.is_over_budget (b : BudgetData) : Prop := b.amount < b.spent

instance (b : BudgetData) : Decidable b.is_over_budget :=
  inferInstanceAs (Decidable (b.amount < b.spent))

/-- One entry of the alert list (type tier and budget name). -/
structure Alert where
  type : String
  name : String
deriving DecidableEq

/-- Loop body of get_budget_alerts: classify one budget into its tier. -/
def alertOf (b : BudgetData) : Alert :=
  if b.is_over_budget then { type := "danger", name := b.name }
  else if b.percentage_used ≥ 80 then { type := "warning", name := b.name }
  else { type := "info", name := b.name }

/-- get_budget_alerts: the loop appends one alert per budget in list
order, then the result is truncated to the first 4 entries. -/
def get_budget_alerts (budgets : List BudgetData) : List Alert :=
  (budgets.foldl (fun acc b => acc ++ [alertOf b]) []).take 4

theorem foldl_append_eq_map (f : BudgetData → Alert) :
    ∀ (l : List BudgetData) (acc : List Alert),
      l.foldl (fun acc b => acc ++ [f b]) acc = acc ++ l.map f := by
  intro l
  induction l with
  | nil => simp
  | cons b bs ih => intro acc; simp [List.foldl_cons, ih]

theorem get_budget_alerts_eq (budgets : List BudgetData) :
    get_budget_alerts budgets = (budgets.map alertOf).take 4 := by
  simp [get_budget_alerts, foldl_append_eq_map]

/-- A budget well within its ceiling, and one over it. -/
def withinBudget : BudgetData := { name := "groceries", spent := 10, amount := 100 }

def overBudget : BudgetData := { name := "travel", spent := 200, amount := 100 }

/-- C4 (counterexample): alerts are emitted in the order of the budget
list, not grouped by tier; a within-budget entry listed before an
over-budget entry produces an info alert ahead of a danger alert. -/
theorem budget_alerts_not_tier_ordered :
    (get_budget_alerts [withinBudget, overBudget]).map Alert.type
      = ["info", "danger"] := by
  have h1 : alertOf withinBudget = { type := "info", name := "groceries" } := by
    simp [alertOf, withinBudget, BudgetData.is_over_budget,
      BudgetData.percentage_used, pyRound]
    norm_num
  have h2 : alertOf overBudget = { type := "danger", name := "travel" } := by
    simp [alertOf, overBudget, BudgetData.is_over_budget]
    norm_num
  simp [get_budget_alerts_eq, h1, h2]

/-- C4 (amended): the alert list has at most 4 entries — exactly
min(#budgets, 4) — and its i-th entry reports the i-th budget of the
input list, with the tier determined by that budget: danger when over
budget, warning when at least 80 percent used, info otherwise. -/
theorem budget_alerts_length_order_amended (budgets : List BudgetData) :
    (get_budget_alerts budgets).length ≤ 4 ∧
    (get_budget_alerts budgets).length = min budgets.length 4 ∧
    ∀ i (hi : i < (get_budget_alerts budgets).length)
      (hb : i < budgets.length),
      ((get_budget_alerts budgets).get ⟨i, hi⟩).name = (budgets.get ⟨i, hb⟩).name ∧
      ((budgets.get ⟨i, hb⟩).is_over_budget →
        ((get_budget_alerts budgets).get ⟨i, hi⟩).type = "danger") ∧
      (¬ (budgets.get ⟨i, hb⟩).is_over_budget →
        (budgets.get ⟨i, hb⟩).percentage_used ≥ 80 →
        ((get_budget_alerts budgets).get ⟨i, hi⟩).type = "warning") ∧
      (¬ (budgets.get ⟨i, hb⟩).is_over_budget →
        (budgets.get ⟨i, hb⟩).percentage_used < 80 →
        ((get_budget_alerts budgets).get ⟨i, hi⟩).type = "info") := by
  have hlen : (get_budget_alerts budgets).length = min budgets.length 4 := by
    simp [get_budget_alerts_eq]
    omega
  refine ⟨by omega, hlen, ?_⟩
  intro i hi hb
  have hget : (get_budget_alerts budgets).get ⟨i, hi⟩ = alertOf (budgets.get ⟨i, hb⟩) := by
    rw [List.get_of_eq (get_budget_alerts_eq budgets)]
    simp [List.get_eq_getElem, List.getElem_take, List.getElem_map]
  rw [hget]
  unfold alertOf
  refine ⟨?_, ?_, ?_, ?_⟩
  · split_ifs <;> rfl
  · intro hov; rw [if_pos hov]
  · intro hov hp
    rw [if_neg hov, if_pos hp]
  · intro hov hp
    rw [if_neg hov, if_neg (by omega)]

/-- Witness for C4 at a concrete two-budget list. -/
theorem budget_alerts_length_order_amended_witness :
    (get_budget_alerts [withinBudget, overBudget]).length ≤ 4 ∧
    ((get_budget_alerts [withinBudget, overBudget]).get
        ⟨0, by simp [get_budget_alerts_eq]⟩).name = withinBudget.name :=
  ⟨(budget_alerts_length_order_amended [withinBudget, overBudget]).1,
    ((budget_alerts_length_order_amended [withinBudget, overBudget]).2.2 0
      (by simp [get_budget_alerts_eq]) (by simp)).1⟩

/-- The Goal row fields read by the verified properties
(goals/models.py); achieved_at is a timestamp, modelled abstractly. -/
structure GoalSt where
  target_amount : ℚ
  current_amount : ℚ
  achieved : Bool
  achieved_at : Option ℚ
deriving DecidableEq

/-- Goal.save: every save appends one GoalHistory row recording the
goal's current amount at that instant (goals/models.py). -/
def goalSave (g : GoalSt) (hist : List ℚ) : List ℚ := hist ++ [g.current_amount]

/-- The per-goal record built by get_goals_data (goals/views.py). -/
structure GoalData where
  target_amount : ℚ
  current_amount : ℚ
deriving DecidableEq

/-- GoalData.percentage_achieved: 0 on a zero target, otherwise the
rounded percentage capped at 100. -/
def GoalData.percentage_achieved (g : GoalData) : ℤ :=
  if g.target_amount = 0 then 0
  else min (pyRound (g.current_amount / g.target_amount * 100)) 100

/-- Response of add_money_to_goal: the two 400 validation rejections,
the success JSON (carrying the rounded percentage and achieved flag), or
the 500 produced when building the JSON divides by a zero target. -/
inductive AddMoneyResp where
  | missingAmount
  | invalidAmount
  | ok (pct : ℤ) (achieved : Bool)
  | divisionError
deriving DecidableEq

/-- Goal state, history and response after add_money_to_goal. -/
structure AddMoneyResult where
  goal : GoalSt
  history : List ℚ
  resp : AddMoneyResp
deriving DecidableEq

/-- Achievement check shared by both contribution entry points: when the
target is reached and the goal is not yet marked achieved, set achieved
and stamp achieved_at with the contribution time. -/
def stampAchievement (g : GoalSt) (now : ℚ) : GoalSt :=
  if g.target_amount ≤ g.current_amount ∧ g.achieved = false then
    { g with achieved := true, achieved_at := some now }
  else g

/-- add_money_to_goal (goals/views.py): a missing or non-positive amount
is rejected before any mutation; a positive amount is added to
current_amount, the achievement check runs, the goal is saved (one
history row appended), and the response percentage is computed with no
zero-target guard. -/
def add_money_to_goal (g : GoalSt) (hist : List ℚ) (amount : Option ℚ) (now : ℚ) :
    AddMoneyResult :=
  match amount with
  | none => { goal := g, history := hist, resp := .missingAmount }
  | some a =>
    if a ≤ 0 then { goal := g, history := hist, resp := .invalidAmount }
    else
      let g2 := stampAchievement { g with current_amount := g.current_amount + a } now
      if g2.target_amount = 0 then
        { goal := g2, history := goalSave g2 hist, resp := .divisionError }
      else
        { goal := g2, history := goalSave g2 hist,
          resp := .ok (min (pyRound (g2.current_amount / g2.target_amount * 100)) 100)
            g2.achieved }

/-- Response of quick_add_money: a non-positive preset redirects with no
mutation, otherwise the contribution is applied and the view redirects. -/
inductive QuickAddResp where
  | rejected
  | applied
deriving DecidableEq

/-- quick_add_money (goals/views.py): same contribution and achievement
logic as add_money_to_goal, for a preset amount. -/
def quick_add_money (g : GoalSt) (hist : List ℚ) (amount : ℚ) (now : ℚ) :
    GoalSt × List ℚ × QuickAddResp :=
  if amount ≤ 0 then (g, hist, .rejected)
  else
    let g2 := stampAchievement { g with current_amount := g.current_amount + amount } now
    (g2, goalSave g2 hist, .applied)

/-- The edit branch of goals_view: overwrite the form fields, taking the
posted current_amount only when supplied, then save; the branch contains
no achievement logic, so achieved and achieved_at are left untouched. -/
def edit_goal (g : GoalSt) (hist : List ℚ) (newTarget : ℚ) (newCurrent : Option ℚ) :
    GoalSt × List ℚ :=
  let g1 := { g with target_amount := newTarget,
                     current_amount := newCurrent.getD g.current_amount }
  (g1, goalSave g1 hist)

/-- A goal-mutating operation: the two contribution entry points and the
goals-view edit. -/
inductive GoalOp where
  | contribute (amount : Option ℚ) (now : ℚ)
  | quickAdd (amount : ℚ) (now : ℚ)
  | editGoal (newTarget : ℚ) (newCurrent : Option ℚ)

/-- Dispatch one goal operation, returning the new goal and history. -/
def applyGoalOp (g : GoalSt) (hist : List ℚ) : GoalOp → GoalSt × List ℚ
  | .contribute a now =>
      let r := add_money_to_goal g hist a now
      (r.goal, r.history)
  | .quickAdd a now =>
      let r := quick_add_money g hist a now
      (r.1, r.2.1)
  | .editGoal t c => edit_goal g hist t c

theorem stampAchievement_amounts (g : GoalSt) (now : ℚ) :
    (stampAchievement g now).target_amount = g.target_amount ∧
    (stampAchievement g now).current_amount = g.current_amount := by
  unfold stampAchievement
  split_ifs <;> simp

theorem stampAchievement_flags (g : GoalSt) (now : ℚ) :
    ((stampAchievement g now).achieved = g.achieved ∧
      (stampAchievement g now).achieved_at = g.achieved_at) ∨
    ((stampAchievement g now).achieved = true ∧
      (stampAchievement g now).achieved_at = some now ∧ g.achieved = false) := by
  unfold stampAchievement
  split_ifs with h
  · exact Or.inr ⟨rfl, rfl, h.2⟩
  · exact Or.inl ⟨rfl, rfl⟩

theorem add_money_pos (g : GoalSt) (hist : List ℚ) (a now : ℚ) (ha : 0 < a) :
    add_money_to_goal g hist (some a) now =
      (if (stampAchievement { g with current_amount := g.current_amount + a } now).target_amount = 0
       then { goal := stampAchievement { g with current_amount := g.current_amount + a } now,
              history := goalSave
                (stampAchievement { g with current_amount := g.current_amount + a } now) hist,
              resp := .divisionError }
       else { goal := stampAchievement { g with current_amount := g.current_amount + a } now,
              history := goalSave
                (stampAchievement { g with current_amount := g.current_amount + a } now) hist,
              resp := .ok (min (pyRound
                ((stampAchievement { g with current_amount := g.current_amount + a } now).current_amount
                  / (stampAchievement { g with current_amount := g.current_amount + a } now).target_amount
                  * 100)) 100)
                (stampAchievement { g with current_amount := g.current_amount + a } now).achieved }) := by
  simp [add_money_to_goal, not_le.mpr ha]

/-- A goal whose target amount is 0. -/
def zeroTargetGoal : GoalSt :=
  { target_amount := 0, current_amount := 0, achieved := false, achieved_at := none }

/-- C3 (counterexample): the percentage returned by add_money_to_goal is
computed without a zero-target guard: contributing 5 to a goal whose
target_amount is 0 runs into a decimal division by zero (surfaced as a
500 response), not the percentage 0 the claim requires. -/
theorem add_money_zero_target_division_error :
    (add_money_to_goal zeroTargetGoal [] (some 5) 0).resp = AddMoneyResp.divisionError := by
  rw [add_money_pos _ _ _ _ (by norm_num)]
  rw [if_pos (by simp [zeroTargetGoal, stampAchievement])]

theorem pct_bounds (num den : ℚ) (hn : 0 ≤ num) (hd : 0 < den) :
    0 ≤ min (pyRound (num / den * 100)) 100 ∧
      min (pyRound (num / den * 100)) 100 ≤ 100 := by
  refine ⟨le_min ?_ (by norm_num), min_le_right _ _⟩
  exact pyRound_nonneg _ (mul_nonneg (div_nonneg hn hd.le) (by norm_num))

/-- C3 (amended): percentage_used and percentage_achieved are integers in
the range 0 to 100 and are 0 when the budget amount or the goal target
is 0; the percentage in the add_money_to_goal response is likewise in
the range 0 to 100 whenever the target amount is nonzero, but a zero
target raises a division error on that path instead of yielding 0. -/
theorem percentages_bounded_amended (b : BudgetData) (g : GoalData)
    (gs : GoalSt) (hist : List ℚ) (a now : ℚ)
    (hbs : 0 ≤ b.spent) (hba : 0 ≤ b.amount)
    (hgc : 0 ≤ g.current_amount) (hgt : 0 ≤ g.target_amount)
    (hgsc : 0 ≤ gs.current_amount) (hgst : 0 < gs.target_amount) (ha : 0 < a) :
    (0 ≤ b.percentage_used ∧ b.percentage_used ≤ 100) ∧
    (b.amount = 0 → b.percentage_used = 0) ∧
    (0 ≤ g.percentage_achieved ∧ g.percentage_achieved ≤ 100) ∧
    (g.target_amount = 0 → g.percentage_achieved = 0) ∧
    ∃ p ach, (add_money_to_goal gs hist (some a) now).resp = AddMoneyResp.ok p ach ∧
      0 ≤ p ∧ p ≤ 100 := by
  refine ⟨?_, ?_, ?_, ?_, ?_⟩
  · unfold BudgetData.percentage_used
    split_ifs with h
    · norm_num
    · exact pct_bounds b.spent b.amount hbs (lt_of_le_of_ne hba (Ne.symm h))
  · intro h; simp [BudgetData.percentage_used, h]
  · unfold GoalData.percentage_achieved
    split_ifs with h
    · norm_num
    · exact pct_bounds g.current_amount g.target_amount hgc (lt_of_le_of_ne hgt (Ne.symm h))
  · intro h; simp [GoalData.percentage_achieved, h]
  · have hta := (stampAchievement_amounts { gs with current_amount := gs.current_amount + a } now).1
    have hca := (stampAchievement_amounts { gs with current_amount := gs.current_amount + a } now).2
    have htne : ¬ (stampAchievement { gs with current_amount := gs.current_amount + a } now).target_amount = 0 := by
      rw [hta]; exact ne_of_gt hgst
    rw [add_money_pos _ _ _ _ ha, if_neg htne]
    refine ⟨_, _, rfl, ?_⟩
    have hb := pct_bounds
      (stampAchievement { gs with current_amount := gs.current_amount + a } now).current_amount
      (stampAchievement { gs with current_amount := gs.current_amount + a } now).target_amount
      (by rw [hca]; simp; positivity) (by rw [hta]; exact hgst)
    exact hb

/-- Witness for C3 (amended) at concrete budget, goal and contribution. -/
theorem percentages_bounded_amended_witness :
    (0 ≤ ({ name := "b", spent := 50, amount := 200 } : BudgetData).percentage_used ∧
      ({ name := "b", spent := 50, amount := 200 } : BudgetData).percentage_used ≤ 100) ∧
    (({ name := "b", spent := 50, amount := 200 } : BudgetData).amount = 0 →
      ({ name := "b", spent := 50, amount := 200 } : BudgetData).percentage_used = 0) ∧
    (0 ≤ ({ target_amount := 4, current_amount := 1 } : GoalData).percentage_achieved ∧
      ({ target_amount := 4, current_amount := 1 } : GoalData).percentage_achieved ≤ 100) ∧
    (({ target_amount := 4, current_amount := 1 } : GoalData).target_amount = 0 →
      ({ target_amount := 4, current_amount := 1 } : GoalData).percentage_achieved = 0) ∧
    ∃ p ach,
      (add_money_to_goal
        { target_amount := 10, current_amount := 0, achieved := false, achieved_at := none }
        [] (some 5) 0).resp = AddMoneyResp.ok p ach ∧ 0 ≤ p ∧ p ≤ 100 :=
  percentages_bounded_amended
    { name := "b", spent := 50, amount := 200 }
    { target_amount := 4, current_amount := 1 }
    { target_amount := 10, current_amount := 0, achieved := false, achieved_at := none }
    [] 5 0 (by norm_num) (by norm_num) (by norm_num) (by norm_num)
    (by norm_num) (by norm_num) (by norm_num)

/-- Coupling invariant of the goal flags: an unachieved goal carries no
achievement timestamp.  Creation initializes achieved to false and
achieved_at to NULL, and only the stamping step sets either, so every
reachable goal satisfies it (the first conjunct below shows every
operation preserves it). -/
def GoalInv (g : GoalSt) : Prop := g.achieved = false → g.achieved_at = none

/-- The goals-view edit at a concrete unachieved goal, raising
current_amount from 0 to 150 against a target of 100. -/
def editCrossEx : GoalSt × List ℚ :=
  edit_goal
    { target_amount := 100, current_amount := 0, achieved := false, achieved_at := none }
    [] 100 (some 150)

/-- C5 (counterexample): a goals-view edit is a save that brings
current_amount to or beyond target_amount, yet it leaves achieved false
and achieved_at unstamped — so achieved_at is not stamped at the first
qualifying save. -/
theorem goal_edit_crossing_does_not_stamp :
    editCrossEx.1.target_amount ≤ editCrossEx.1.current_amount ∧
    editCrossEx.1.achieved = false ∧ editCrossEx.1.achieved_at = none := by
  refine ⟨?_, ?_, ?_⟩ <;> norm_num [editCrossEx, edit_goal]

/-- C5 (amended): across contributions and edits, the goal-flag coupling
invariant is preserved, achieved never reverts from true, achieved_at
never changes once set; a positive contribution through either entry
point (add_money_to_goal or quick_add_money) that reaches the target of
a not-yet-achieved goal sets achieved and stamps achieved_at with the
contribution time, while a positive contribution through either entry
point that stays below the target leaves both flags exactly as they
were — so the flags are set exactly at the first qualifying
contribution; and the goals-view edit never touches achieved or
achieved_at, even when it moves current_amount past the target. -/
theorem goal_achievement_monotonic_amended (g : GoalSt) (hist : List ℚ) :
    (∀ op : GoalOp, GoalInv g → GoalInv (applyGoalOp g hist op).1) ∧
    (∀ op : GoalOp, g.achieved = true → ((applyGoalOp g hist op).1).achieved = true) ∧
    (∀ op : GoalOp, ∀ t : ℚ, GoalInv g → g.achieved_at = some t →
      ((applyGoalOp g hist op).1).achieved_at = some t) ∧
    (∀ a now : ℚ, 0 < a → g.achieved = false →
      g.target_amount ≤ g.current_amount + a →
      (((applyGoalOp g hist (.contribute (some a) now)).1).achieved = true ∧
        ((applyGoalOp g hist (.contribute (some a) now)).1).achieved_at = some now) ∧
      (((applyGoalOp g hist (.quickAdd a now)).1).achieved = true ∧
        ((applyGoalOp g hist (.quickAdd a now)).1).achieved_at = some now)) ∧
    (∀ a now : ℚ, 0 < a → g.current_amount + a < g.target_amount →
      (((applyGoalOp g hist (.contribute (some a) now)).1).achieved = g.achieved ∧
        ((applyGoalOp g hist (.contribute (some a) now)).1).achieved_at = g.achieved_at) ∧
      (((applyGoalOp g hist (.quickAdd a now)).1).achieved = g.achieved ∧
        ((applyGoalOp g hist (.quickAdd a now)).1).achieved_at = g.achieved_at)) ∧
    (∀ nt : ℚ, ∀ nc : Option ℚ,
      ((applyGoalOp g hist (.editGoal nt nc)).1).achieved = g.achieved ∧
      ((applyGoalOp g hist (.editGoal nt nc)).1).achieved_at = g.achieved_at) := by
  have hstamp : ∀ (g' : GoalSt) (now : ℚ),
      g'.achieved = g.achieved → g'.achieved_at = g.achieved_at →
      (GoalInv g → GoalInv (stampAchievement g' now)) ∧
      (g.achieved = true → (stampAchievement g' now).achieved = true) ∧
      (GoalInv g → ∀ t : ℚ, g.achieved_at = some t →
        (stampAchievement g' now).achieved_at = some t) := by
    intro g' now hach hat
    rcases stampAchievement_flags g' now with ⟨h1, h2⟩ | ⟨h1, h2, h3⟩
    · refine ⟨fun hinv hf => ?_, fun ht => ?_, fun hinv t hsome => ?_⟩
      · rw [h2, hat]; exact hinv (by rw [← hach, ← h1, hf])
      · rw [h1, hach, ht]
      · rw [h2, hat, hsome]
    · refine ⟨fun hinv hf => ?_, fun ht => ?_, fun hinv t hsome => ?_⟩
      · rw [h1] at hf; exact absurd hf (by simp)
      · rw [h1]
      · exfalso
        have : g.achieved = false := by rw [← hach, h3]
        rw [hinv this] at hsome
        exact Option.noConfusion hsome
  have contribGoal : ∀ (a now : ℚ), 0 < a →
      (applyGoalOp g hist (.contribute (some a) now)).1
        = stampAchievement { g with current_amount := g.current_amount + a } now := by
    intro a now ha
    simp [applyGoalOp, add_money_pos g hist a now ha]
    split_ifs <;> rfl
  have quickGoal : ∀ (a now : ℚ), 0 < a →
      (applyGoalOp g hist (.quickAdd a now)).1
        = stampAchievement { g with current_amount := g.current_amount + a } now := by
    intro a now ha
    simp [applyGoalOp, quick_add_money, not_le.mpr ha]
  refine ⟨?_, ?_, ?_, ?_, ?_, ?_⟩
  · intro op hinv
    cases op with
    | contribute a now =>
        match a with
        | none => exact hinv
        | some x =>
            rcases le_or_lt x 0 with hx | hx
            · simpa [applyGoalOp, add_money_to_goal, hx] using hinv
            · rw [contribGoal x now hx]
              exact (hstamp { g with current_amount := g.current_amount + x } now rfl rfl).1 hinv
    | quickAdd x now =>
        rcases le_or_lt x 0 with hx | hx
        · simpa [applyGoalOp, quick_add_money, hx] using hinv
        · have : (applyGoalOp g hist (.quickAdd x now)).1
              = stampAchievement { g with current_amount := g.current_amount + x } now := by
            simp [applyGoalOp, quick_add_money, not_le.mpr hx]
          rw [this]
          exact (hstamp { g with current_amount := g.current_amount + x } now rfl rfl).1 hinv
    | editGoal nt nc =>
        intro hf
        simp only [applyGoalOp, edit_goal] at hf ⊢
        exact hinv hf
  · intro op ht
    cases op with
    | contribute a now =>
        match a with
        | none => exact ht
        | some x =>
            rcases le_or_lt x 0 with hx | hx
            · simpa [applyGoalOp, add_money_to_goal, hx] using ht
            · rw [contribGoal x now hx]
              exact (hstamp { g with current_amount := g.current_amount + x } now rfl rfl).2.1 ht
    | quickAdd x now =>
        rcases le_or_lt x 0 with hx | hx
        · simpa [applyGoalOp, quick_add_money, hx] using ht
        · have : (applyGoalOp g hist (.quickAdd x now)).1
              = stampAchievement { g with current_amount := g.current_amount + x } now := by
            simp [applyGoalOp, quick_add_money, not_le.mpr hx]
          rw [this]
          exact (hstamp { g with current_amount := g.current_amount + x } now rfl rfl).2.1 ht
    | editGoal nt nc => simpa [applyGoalOp, edit_goal] using ht
  · intro op t hinv hsome
    cases op with
    | contribute a now =>
        match a with
        | none => exact hsome
        | some x =>
            rcases le_or_lt x 0 with hx | hx
            · simpa [applyGoalOp, add_money_to_goal, hx] using hsome
            · rw [contribGoal x now hx]
              exact (hstamp { g with current_amount := g.current_amount + x } now rfl rfl).2.2 hinv t hsome
    | quickAdd x now =>
        rcases le_or_lt x 0 with hx | hx
        · simpa [applyGoalOp, quick_add_money, hx] using hsome
        · have : (applyGoalOp g hist (.quickAdd x now)).1
              = stampAchievement { g with current_amount := g.current_amount + x } now := by
            simp [applyGoalOp, quick_add_money, not_le.mpr hx]
          rw [this]
          exact (hstamp { g with current_amount := g.current_amount + x } now rfl rfl).2.2 hinv t hsome
    | editGoal nt nc => simpa [applyGoalOp, edit_goal] using hsome
  · intro a now ha hf hreach
    constructor
    · rw [contribGoal a now ha]
      unfold stampAchievement
      rw [if_pos ⟨by simpa using hreach, by simpa using hf⟩]
      exact ⟨rfl, rfl⟩
    · rw [quickGoal a now ha]
      unfold stampAchievement
      rw [if_pos ⟨by simpa using hreach, by simpa using hf⟩]
      exact ⟨rfl, rfl⟩
  · intro a now ha hbelow
    have hno : ¬ (({ g with current_amount := g.current_amount + a } : GoalSt).target_amount
        ≤ ({ g with current_amount := g.current_amount + a } : GoalSt).current_amount ∧
        ({ g with current_amount := g.current_amount + a } : GoalSt).achieved = false) := by
      intro hc
      exact absurd hc.1 (by simpa using not_le.mpr hbelow)
    constructor
    · rw [contribGoal a now ha]
      unfold stampAchievement
      rw [if_neg hno]
      exact ⟨rfl, rfl⟩
    · rw [quickGoal a now ha]
      unfold stampAchievement
      rw [if_neg hno]
      exact ⟨rfl, rfl⟩
  · intro nt nc
    exact ⟨rfl, rfl⟩

/-- Witness for C5 (amended): at a concrete goal, a target-reaching
contribution stamps both flags through either entry point, and a
below-target contribution leaves achieved unchanged. -/
theorem goal_achievement_monotonic_amended_witness :
    ((applyGoalOp
        { target_amount := 10, current_amount := 0, achieved := false, achieved_at := none }
        [] (.contribute (some 10) 7)).1).achieved = true ∧
    ((applyGoalOp
        { target_amount := 10, current_amount := 0, achieved := false, achieved_at := none }
        [] (.contribute (some 10) 7)).1).achieved_at = some 7 ∧
    ((applyGoalOp
        { target_amount := 10, current_amount := 0, achieved := false, achieved_at := none }
        [] (.quickAdd 10 7)).1).achieved = true ∧
    ((applyGoalOp
        { target_amount := 10, current_amount := 0, achieved := false, achieved_at := none }
        [] (.contribute (some 3) 7)).1).achieved
      = ({ target_amount := 10, current_amount := 0, achieved := false,
           achieved_at := none } : GoalSt).achieved := by
  have h4 := (goal_achievement_monotonic_amended
    { target_amount := 10, current_amount := 0, achieved := false, achieved_at := none }
    []).2.2.2.1 10 7 (by norm_num) rfl (by norm_num)
  have h5 := (goal_achievement_monotonic_amended
    { target_amount := 10, current_amount := 0, achieved := false, achieved_at := none }
    []).2.2.2.2.1 3 7 (by norm_num) (by norm_num)
  exact ⟨h4.1.1, h4.1.2, h4.2.1, h5.1.1⟩

/-- C9: both contribution entry points reject a missing or non-positive
amount without mutating the goal or the history; a positive amount is
added to current_amount, persisted, and exactly one history snapshot is
appended, recording the new current amount. -/
theorem goal_contribution_validation (g : GoalSt) (hist : List ℚ) (a now : ℚ) :
    (add_money_to_goal g hist none now
      = { goal := g, history := hist, resp := .missingAmount }) ∧
    (a ≤ 0 →
      add_money_to_goal g hist (some a) now
          = { goal := g, history := hist, resp := .invalidAmount } ∧
      quick_add_money g hist a now = (g, hist, .rejected)) ∧
    (0 < a →
      ((add_money_to_goal g hist (some a) now).goal.current_amount
          = g.current_amount + a ∧
        (add_money_to_goal g hist (some a) now).history
          = hist ++ [(add_money_to_goal g hist (some a) now).goal.current_amount]) ∧
      ((quick_add_money g hist a now).1.current_amount = g.current_amount + a ∧
        (quick_add_money g hist a now).2.1
          = hist ++ [(quick_add_money g hist a now).1.current_amount])) := by
  refine ⟨rfl, fun hx => ⟨by simp [add_money_to_goal, hx], by simp [quick_add_money, hx]⟩,
    fun hx => ⟨⟨?_, ?_⟩, ⟨?_, ?_⟩⟩⟩
  · rw [add_money_pos _ _ _ _ hx]
    split_ifs <;>
      simpa using (stampAchievement_amounts { g with current_amount := g.current_amount + a } now).2
  · rw [add_money_pos _ _ _ _ hx]
    split_ifs <;> simp [goalSave]
  · simp [quick_add_money, not_le.mpr hx]
    simpa using (stampAchievement_amounts { g with current_amount := g.current_amount + a } now).2
  · simp [quick_add_money, not_le.mpr hx, goalSave]

/-- Concrete goal used to witness the contribution contract. -/
def contribGoalEx : GoalSt :=
  { target_amount := 10, current_amount := 2, achieved := false, achieved_at := none }

/-- Witness for C9: a non-positive amount leaves the goal untouched, and
a positive amount lands in current_amount. -/
theorem goal_contribution_validation_witness :
    (add_money_to_goal contribGoalEx [] (some (-3)) 0
      = { goal := contribGoalEx, history := [], resp := .invalidAmount }) ∧
    (add_money_to_goal contribGoalEx [] (some 4) 0).goal.current_amount
      = contribGoalEx.current_amount + 4 :=
  ⟨((goal_contribution_validation contribGoalEx [] (-3) 0).2.1 (by norm_num)).1,
    (((goal_contribution_validation contribGoalEx [] 4 0).2.2 (by norm_num)).1).1⟩

/-- Does the goal have at least one history snapshot in month m of the
12-month window?  In get_goals_chart_data the defaultdict insertion on
lookup puts the month key into the bucket dict as soon as any snapshot
of that month is processed. -/
def monthHasSnapshot (snaps : List (Nat × ℚ)) (m : Nat) : Bool :=
  snaps.any (fun s => s.1 == m)

/-- Value the bucket dict holds for month m: the running comparison
against the float-0 default keeps the maximum of 0 and the month's
snapshot amounts (snapshot amounts are goal current amounts, so this is
the month's maximum snapshot). -/
def monthAmount (snaps : List (Nat × ℚ)) (m : Nat) : ℚ :=
  ((snaps.filter (fun s => s.1 == m)).map (fun s => s.2)).foldl max 0

/-- The carry-forward walk of get_goals_chart_data over the month list: a
month with a snapshot updates the running value, a month without one
repeats it. -/
def chartFrom (snaps : List (Nat × ℚ)) : ℚ → List Nat → List ℚ
  | _, [] => []
  | last, m :: ms =>
      (if monthHasSnapshot snaps m then monthAmount snaps m else last)
        :: chartFrom snaps (if monthHasSnapshot snaps m then monthAmount snaps m else last) ms

/-- One goal's 12-point data series of get_goals_chart_data: walk the 12
window months oldest first, carry-forward value starting at 0. -/
def get_goals_chart_data (snaps : List (Nat × ℚ)) : List ℚ :=
  chartFrom snaps 0 (List.range 12)

theorem chartFrom_length (snaps : List (Nat × ℚ)) :
    ∀ (ms : List Nat) (last : ℚ), (chartFrom snaps last ms).length = ms.length := by
  intro ms
  induction ms with
  | nil => intro last; rfl
  | cons m ms ih => intro last; simp [chartFrom, ih]

theorem chartFrom_getD_step (snaps : List (Nat × ℚ)) :
    ∀ (ms : List Nat) (last : ℚ) (i : Nat), i + 1 < ms.length →
      monthHasSnapshot snaps (ms.getD (i + 1) 0) = false →
      (chartFrom snaps last ms).getD (i + 1) 0 = (chartFrom snaps last ms).getD i 0 := by
  intro ms
  induction ms with
  | nil => intro last i hi; simp at hi
  | cons m ms ih =>
      intro last i hi hno
      match i with
      | 0 =>
          match ms, hi with
          | m' :: ms', _ =>
              simp only [List.getD_cons_succ, List.getD_cons_zero] at hno ⊢
              simp only [chartFrom]
              simp only [List.getD_cons_succ, List.getD_cons_zero]
              simp [chartFrom, hno]
      | j + 1 =>
          simp only [chartFrom, List.getD_cons_succ]
          exact ih _ j (by simpa using hi) (by simpa using hno)

theorem chartFrom_getD_has (snaps : List (Nat × ℚ)) :
    ∀ (ms : List Nat) (last : ℚ) (i : Nat), i < ms.length →
      monthHasSnapshot snaps (ms.getD i 0) = true →
      (chartFrom snaps last ms).getD i 0 = monthAmount snaps (ms.getD i 0) := by
  intro ms
  induction ms with
  | nil => intro last i hi; simp at hi
  | cons m ms ih =>
      intro last i hi hyes
      match i with
      | 0 =>
          simp only [List.getD_cons_zero] at hyes ⊢
          simp [chartFrom, hyes]
      | j + 1 =>
          simp only [chartFrom, List.getD_cons_succ]
          exact ih _ j (by simpa using hi) (by simpa using hyes)

theorem range_getD (n i : Nat) (h : i < n) : (List.range n).getD i 0 = i := by
  rw [List.getD_eq_getElem _ _ (by simpa using h)]
  simp

/-- C8: the 12-month goal series is a step function over the history
snapshots: it has 12 points; a month with no snapshot repeats the
previous month's value; a month with snapshots reports the bucket value
(the maximum snapshot amount of that month); and on the claim's concrete
instance — snapshots only in window months 1 and 3 (indices 0 and 2)
with values 100 and 300 — months 1 and 2 report 100 and months 3
through 12 report 300, also when month 1 holds an extra lower snapshot. -/
theorem chart_step_fill (snaps : List (Nat × ℚ)) (m : Nat) :
    (get_goals_chart_data snaps).length = 12 ∧
    (m + 1 < 12 → monthHasSnapshot snaps (m + 1) = false →
      (get_goals_chart_data snaps).getD (m + 1) 0
        = (get_goals_chart_data snaps).getD m 0) ∧
    (m < 12 → monthHasSnapshot snaps m = true →
      (get_goals_chart_data snaps).getD m 0 = monthAmount snaps m) ∧
    get_goals_chart_data [(0, 100), (2, 300)]
      = [100, 100, 300, 300, 300, 300, 300, 300, 300, 300, 300, 300] ∧
    get_goals_chart_data [(0, 100), (0, 80), (2, 300)]
      = [100, 100, 300, 300, 300, 300, 300, 300, 300, 300, 300, 300] := by
  refine ⟨?_, ?_, ?_, by decide, by decide⟩
  · simp [get_goals_chart_data, chartFrom_length]
  · intro hm hno
    have := chartFrom_getD_step snaps (List.range 12) 0 m
      (by simpa using hm) (by rwa [range_getD _ _ hm])
    exact this
  · intro hm hyes
    have := chartFrom_getD_has snaps (List.range 12) 0 m
      (by simpa using hm) (by rwa [range_getD _ _ hm])
    rwa [range_getD _ _ hm] at this

/-- Witness for C8: the step conjunct applied at a concrete snapshot
list and month index. -/
theorem chart_step_fill_witness :
    (get_goals_chart_data [(0, (100 : ℚ))]).getD 2 0
      = (get_goals_chart_data [(0, (100 : ℚ))]).getD 1 0 :=
  (chart_step_fill [(0, (100 : ℚ))] 1).2.1 (by norm_num) (by decide)

/-- Split a character list at every occurrence of the separator (the
framework's byte-position string splitting, restated as character-list
recursion so that terms evaluate). -/
def splitOnChar (sep : Char) : List Char → List (List Char)
  | [] => [[]]
  | c :: cs =>
      match splitOnChar sep cs with
      | [] => if c = sep then [[], []] else [[c]]
      | h :: t => if c = sep then [] :: h :: t else (c :: h) :: t

/-- Lower-case one ASCII character. -/
def lowerChar (c : Char) : Char :=
  if 65 ≤ c.toNat ∧ c.toNat ≤ 90 then Char.ofNat (c.toNat + 32) else c

/-- Lower-case a string (the importer lower-cases the type field). -/
def strLower (s : String) : String := ⟨s.data.map lowerChar⟩

/-- Value of a digit list. -/
def natVal (cs : List Char) : Nat :=
  cs.foldl (fun n c => n * 10 + (c.toNat - 48)) 0

/-- Does the character list consist of digits only? -/
def allDigits (cs : List Char) : Bool := cs.all Char.isDigit

/-- Parse an unsigned integer field. -/
def parseNatL (cs : List Char) : Option Nat :=
  if cs ≠ [] ∧ allDigits cs = true then some (natVal cs) else none

/-- Unsigned part of the Decimal string grammar: integer digits with an
optional fractional part. -/
def parseDecCore (cs : List Char) : Option ℚ :=
  match splitOnChar '.' cs with
  | [i] => (parseNatL i).map (fun n => (n : ℚ))
  | [i, f] =>
      if (i ≠ [] ∨ f ≠ []) ∧ allDigits i = true ∧ allDigits f = true then
        some ((natVal i : ℚ) + (natVal f : ℚ) / ((10 : ℚ) ^ f.length))
      else none
  | _ => none

/-- Subset of the Decimal string grammar the importer feeds to
Decimal(amount_str): optional sign, integer digits, optional fractional
digits.  Exponent forms are not modelled; no verified property depends
on them. -/
def parseDecimal (s : String) : Option ℚ :=
  match s.data with
  | '-' :: rest => (parseDecCore rest).map (fun q => -q)
  | '+' :: rest => parseDecCore rest
  | cs => parseDecCore cs

/-- Gregorian leap year. -/
def isLeapYear (y : Nat) : Bool :=
  (y % 4 == 0 && y % 100 != 0) || y % 400 == 0

/-- Days in a month. -/
def daysInMonth (y m : Nat) : Nat :=
  if m = 2 then (if isLeapYear y then 29 else 28)
  else if m = 4 ∨ m = 6 ∨ m = 9 ∨ m = 11 then 30
  else 31

/-- Is (year, month, day) a calendar date? -/
def validYMD (y m d : Nat) : Bool :=
  decide (1 ≤ m ∧ m ≤ 12 ∧ 1 ≤ d ∧ d ≤ daysInMonth y m)

/-- Split into three numeric fields on a separator. -/
def parseThree (s : String) (sep : Char) : Option (Nat × Nat × Nat) :=
  match splitOnChar sep s.data with
  | [a, b, c] =>
      match parseNatL a, parseNatL b, parseNatL c with
      | some x, some y, some z => some (x, y, z)
      | _, _, _ => none
  | _ => none

/-- Reject a candidate (year, month, day) triple that is not a calendar
date, as strptime does. -/
def checkYMD (p : Option (Nat × Nat × Nat)) : Option (Nat × Nat × Nat) :=
  match p with
  | some (y, m, d) => if validYMD y m d then some (y, m, d) else none
  | none => none

/-- The four date formats the importer tries in order (ISO dashes, then
month/day/year, day/month/year and year/month/day with slashes); the
result is a (year, month, day) triple. -/
def parseDateAny (s : String) : Option (Nat × Nat × Nat) :=
  (checkYMD (parseThree s '-')) <|>
  (checkYMD ((parseThree s '/').map (fun p => (p.2.2, p.1, p.2.1)))) <|>
  (checkYMD ((parseThree s '/').map (fun p => (p.2.2, p.2.1, p.1)))) <|>
  (checkYMD (parseThree s '/'))

/-- One data row of the uploaded CSV, as the DictReader delivers it
(whitespace stripping is not modelled: fields arrive already trimmed). -/
structure CsvRow where
  dateStr : String
  description : String
  typeStr : String
  amountStr : String
  categoryIdStr : String
deriving DecidableEq

/-- The per-row rejection reasons of the importer, in the order the
checks run. -/
inductive RowError where
  | missingFields
  | badType
  | badAmount
  | nonPositiveAmount
  | categoryNotFound
  | typeMismatch
  | badDate
deriving DecidableEq

/-- One reported error: the CSV row number it names (the header is row
1, so data rows start at 2) and the reason. -/
structure CsvError where
  rowNumber : Nat
  error : RowError
deriving DecidableEq

/-- Outcome of validating one row: a rejection reason, or the validated
payload (transaction type, amount, category id). -/
inductive RowCheck where
  | reject (e : RowError)
  | accept (v : TxType × ℚ × Nat)
deriving DecidableEq

/-- Per-row validation of the importer, checks in source order; on
success the validated payload is the transaction type, amount and
category id. -/
def validateRow (userCats : List Category) (r : CsvRow) : RowCheck :=
  let ty := strLower r.typeStr
  if r.dateStr.data.isEmpty || ty.data.isEmpty
      || r.amountStr.data.isEmpty || r.categoryIdStr.data.isEmpty then
    .reject .missingFields
  else if ty ≠ "income" ∧ ty ≠ "expense" then .reject .badType
  else
    match parseDecimal r.amountStr with
    | none => .reject .badAmount
    | some a =>
      if a ≤ 0 then .reject .nonPositiveAmount
      else
        match userCats.find? (fun c => toString c.id == r.categoryIdStr) with
        | none => .reject .categoryNotFound
        | some cat =>
          if cat.ty.str ≠ ty then .reject .typeMismatch
          else
            match parseDateAny r.dateStr with
            | none => .reject .badDate
            | some _ => .accept (if ty = "income" then .income else .expense, a, cat.id)

/-- The row loop of the importer: walk the rows with the running row
number, accumulating one error per invalid row and the validated
payloads, both in file order. -/
def processRows (userCats : List Category) :
    Nat → List CsvRow → List CsvError × List (TxType × ℚ × Nat)
  | _, [] => ([], [])
  | n, r :: rs =>
      let rest := processRows userCats (n + 1) rs
      match validateRow userCats r with
      | .reject e => ({ rowNumber := n, error := e } :: rest.1, rest.2)
      | .accept v => (rest.1, v :: rest.2)

/-- Result of a CSV import: the JSON success flag, the errors the
response reports (truncated to the first 10), the resulting state, and
how many times the balance recalculation ran. -/
structure CsvResult where
  success : Bool
  reportedErrors : List CsvError
  st : St
  recalcCount : Nat

/-- The requesting user's categories: the importer's category_map is
keyed by str(category.id) over these. -/
def userCatsOf (st : St) : List Category :=
  st.categories.filter (fun c => c.userId == st.account.userId)

/-- The CSV importer of transactions/views.py after header validation:
validate every row; on any error, report the first 10 errors and
persist nothing; otherwise bulk-create all rows (no per-row save, hence
no incremental balance updates) and recalculate the balance exactly
once; a file with no valid rows persists nothing and performs no
recalculation. -/
def csv_import (st : St) (rows : List CsvRow) : CsvResult :=
  let parts := processRows (userCatsOf st) 2 rows
  if parts.1 ≠ [] then
    { success := false, reportedErrors := parts.1.take 10, st := st, recalcCount := 0 }
  else if parts.2 ≠ [] then
    let txs := parts.2.enum.map (fun p =>
      ({ id := st.nextId + p.1, ty := p.2.1, amount := p.2.2.1,
         categoryId := p.2.2.2, accountId := st.account.userId } : Tx))
    { success := true, reportedErrors := [],
      st := recalcSt { st with ledger := st.ledger ++ txs, nextId := st.nextId + txs.length },
      recalcCount := 1 }
  else
    { success := false, reportedErrors := [], st := st, recalcCount := 0 }

theorem processRows_errors (cats : List Category) :
    ∀ (rows : List CsvRow) (n : Nat),
      (processRows cats n rows).1
        = (rows.enumFrom n).filterMap (fun p =>
            match validateRow cats p.2 with
            | .reject e => some { rowNumber := p.1, error := e }
            | .accept _ => none) := by
  intro rows
  induction rows with
  | nil => intro n; rfl
  | cons r rs ih =>
      intro n
      simp only [processRows, List.enumFrom, List.filterMap_cons]
      cases validateRow cats r with
      | reject e => simp [ih]
      | accept v => simp [ih]

theorem processRows_length (cats : List Category) :
    ∀ (rows : List CsvRow) (n : Nat),
      (processRows cats n rows).1.length + (processRows cats n rows).2.length
        = rows.length := by
  intro rows
  induction rows with
  | nil => intro n; rfl
  | cons r rs ih =>
      intro n
      simp only [processRows]
      cases validateRow cats r with
      | reject e =>
          simp only [List.length_cons]
          have := ih (n + 1)
          omega
      | accept v =>
          simp only [List.length_cons]
          have := ih (n + 1)
          omega

/-- Import state with one income category (id 1) owned by the requesting
user 1. -/
def csvStEx : St :=
  { ledger := [], account := { userId := 1, balance := 0 },
    categories := [{ id := 1, userId := 1, ty := .income }], nextId := 1 }

/-- A row whose amount fails the positivity check. -/
def negAmountRow : CsvRow :=
  { dateStr := "2024-01-15", description := "x", typeStr := "income",
    amountStr := "-5", categoryIdStr := "1" }

/-- C6 (counterexample): an import of eleven invalid rows reports only
the first 10 errors — not one per invalid row — because the response
truncates the error list; and a CSV file with no rows (every row
vacuously valid) performs zero balance recalculations, not one. -/
theorem csv_import_cap_and_empty_counterexample :
    (csv_import csvStEx (List.replicate 11 negAmountRow)).reportedErrors.length = 10 ∧
    (List.replicate 11 negAmountRow).length = 11 ∧
    (csv_import csvStEx []).recalcCount = 0 := by
  refine ⟨by decide, by decide, by decide⟩

/-- C6 (amended): every invalid row contributes exactly one error
carrying its CSV row number (data rows are numbered from 2, after the
header row); on any error the response reports the first 10 errors and
persists nothing, with no recalculation; a fully valid nonempty file
persists all its rows and recalculates the balance exactly once,
landing it on the ledger difference; a valid but empty file persists
nothing and performs no recalculation. -/
theorem csv_import_batch_amended (st : St) (rows : List CsvRow) :
    (processRows (userCatsOf st) 2 rows).1
      = (rows.enumFrom 2).filterMap (fun p =>
          match validateRow (userCatsOf st) p.2 with
          | .reject e => some { rowNumber := p.1, error := e }
          | .accept _ => none) ∧
    ((processRows (userCatsOf st) 2 rows).1 ≠ [] →
      (csv_import st rows).st.ledger = st.ledger ∧
      (csv_import st rows).recalcCount = 0 ∧
      (csv_import st rows).reportedErrors
        = ((processRows (userCatsOf st) 2 rows).1).take 10) ∧
    ((processRows (userCatsOf st) 2 rows).1 = [] → rows ≠ [] →
      (csv_import st rows).st.ledger.length = st.ledger.length + rows.length ∧
      (csv_import st rows).recalcCount = 1 ∧
      (csv_import st rows).st.account.balance
        = ledgerDiff (csv_import st rows).st.ledger st.account.userId) ∧
    ((processRows (userCatsOf st) 2 rows).1 = [] → rows = [] →
      (csv_import st rows).st.ledger = st.ledger ∧
      (csv_import st rows).recalcCount = 0) := by
  refine ⟨processRows_errors _ rows 2, ?_, ?_, ?_⟩
  · intro h
    simp only [csv_import]
    rw [if_pos h]
    exact ⟨rfl, rfl, rfl⟩
  · intro h hrow
    have hlen := processRows_length (userCatsOf st) rows 2
    rw [h] at hlen
    simp only [List.length_nil, Nat.zero_add] at hlen
    have hvals : (processRows (userCatsOf st) 2 rows).2 ≠ [] := by
      intro hv
      rw [hv] at hlen
      exact hrow (List.length_eq_zero.mp hlen.symm)
    simp only [csv_import]
    rw [if_neg (by simp [h]), if_pos hvals]
    refine ⟨?_, rfl, ?_⟩
    · simp only [recalcSt, List.length_append, List.length_map, List.enum_length]
      omega
    · exact recalcSt_balance _
  · intro h hrow
    subst hrow
    exact ⟨rfl, rfl⟩

/-- Witness for C6 (amended): the error path at a concrete one-row CSV
file whose single row carries a negative amount. -/
theorem csv_import_batch_amended_witness :
    (csv_import csvStEx [negAmountRow]).st.ledger = csvStEx.ledger ∧
    (csv_import csvStEx [negAmountRow]).recalcCount = 0 ∧
    (csv_import csvStEx [negAmountRow]).reportedErrors
      = ((processRows (userCatsOf csvStEx) 2 [negAmountRow]).1).take 10 :=
  (csv_import_batch_amended csvStEx [negAmountRow]).2.1 (by decide)

end FinTracker
